import Mathlib

/-!
# Verification of the abad ECMAScript-subset interpreter

Shallow embedding of the abad repository (a small ECMAScript 5 interpreter
written in Go) together with proofs about its lexer, its Bool value type and
its tree-walking evaluator.

* `lexer` embeds `lexer/lex.go` (the character-level token state machine).
* `types` embeds `types/bool.go` and — where the `types` package sources are
  not available — models the value system from the specification.
* `ast` and `abad` embed the evaluator (`abad.go`): `eval`, `evalProgram`,
  `evalIdentExpr`, `evalUnaryExpr`, `evalMemberExpr`, `evalCallExpr`,
  `evalArgs`.

Source text is a sequence of UTF-16 code units (`utf16.Str` in the Go code);
it is embedded as `List Nat` of code-unit values.  All inputs that appear in
the theorems are ASCII, where code units and char codes coincide.
-/

/-- UTF-16 code units of an ASCII string (embeds `utf16.NewStr` / `utf16.S`
for the ASCII inputs used in this development). -/
def strU (s : String) : List Nat :=
  s.data.map Char.toNat

namespace token

/-- Token kinds (`token.Type` in the Go sources; spelled `Ty` because `Type`
is reserved in Lean).  The constructors follow the token kinds listed in the
spec's data model and used by the lexer and its tests. -/
inductive Ty where
  | Decimal
  | Hexadecimal
  | Str
  | Ident
  | LineTerminator
  | Dot
  | Comma
  | LParen
  | RParen
  | Plus
  | Minus
  | Illegal
  | EOF
deriving DecidableEq, Repr

end token

namespace lexer

/-- `Tokval` from `lexer/lex.go`: a token kind together with its lexeme
(the exact consumed span of code units). -/
structure Tokval where
  type : token.Ty
  value : List Nat
deriving DecidableEq, Repr

/-- `lexer.EOF`: `Tokval{ Type: token.EOF }` (zero value for the lexeme). -/
def EOF : Tokval := { type := token.Ty.EOF, value := [] }

/-- `numbers = utf16.NewStr("0123456789")` from `lex.go`'s `init`. -/
def numbers : List Nat := strU "0123456789"

/-- `dot = utf16.NewStr(".")` from `lex.go`'s `init`. -/
def dot : List Nat := strU "."

/-- `exponents = utf16.NewStr("eE")` from `lex.go`'s `init` (declared in the
source; not consulted by any state yet). -/
def exponents : List Nat := strU "eE"

/-- `hexStart = utf16.NewStr("xX")` from `lex.go`'s `init`. -/
def hexStart : List Nat := strU "xX"

/-- `isNumber`: the single-code-unit string is contained in `numbers`. -/
def isNumber (c : Nat) : Bool := numbers.contains c

/-- `isDot`: the single-code-unit string equals `dot`. -/
def isDot (c : Nat) : Bool := dot.contains c

/-- `isHexStart`: the single-code-unit string is contained in `hexStart`. -/
def isHexStart (c : Nat) : Bool := hexStart.contains c

/-- `isEOF(code, position)`: `position >= uint(len(code))`. -/
def isEOF (code : List Nat) (position : Nat) : Bool :=
  decide (position ≥ code.length)

/-- The scanning loop `for !isEOF(code, position) { position += 1 }` shared by
`decimalState` and `hexadecimalState`, with the number of remaining steps made
explicit (the loop advances `position` once per iteration, so
`code.length - position` steps always reach the end of the input). -/
def skipFuel : Nat → List Nat → Nat → Nat
  | 0, _, position => position
  | f + 1, code, position =>
      if isEOF code position then position else skipFuel f code (position + 1)

/-- Final `position` after the scan-to-end loop of `decimalState` and
`hexadecimalState`. -/
def skipToEOF (code : List Nat) (position : Nat) : Nat :=
  skipFuel (code.length - position) code position

/-- A lexer step returns the produced token and, in `lex.go`, the next
`lexerState`.  Every non-nil state returned by the source is
`initialState(code[position:])`, so the continuation is represented by the
remaining input: `none` embeds the nil state (the goroutine stops), and
`some rest` embeds `initialState(rest)`. -/
def illegalToken (code : List Nat) : Tokval × Option (List Nat) :=
  ({ type := token.Ty.Illegal, value := code }, none)

/-- `decimalState`: scan to the end of the input and emit a `Decimal` token
carrying the whole consumed span, continuing at `code[position:]`. -/
def decimalState (code : List Nat) (position : Nat) : Tokval × Option (List Nat) :=
  let p := skipToEOF code position
  ({ type := token.Ty.Decimal, value := code }, some (code.drop p))

/-- `hexadecimalState`: scan to the end of the input and emit a `Hexadecimal`
token carrying the whole consumed span, continuing at `code[position:]`. -/
def hexadecimalState (code : List Nat) (position : Nat) : Tokval × Option (List Nat) :=
  let p := skipToEOF code position
  ({ type := token.Ty.Hexadecimal, value := code }, some (code.drop p))

/-- `numberState` from `lex.go`. -/
def numberState (code : List Nat) (position : Nat) : Tokval × Option (List Nat) :=
  if isEOF code position then
    ({ type := token.Ty.Decimal, value := code }, some (code.drop position))
  else if isNumber (code.getD position 0) || isDot (code.getD position 0) then
    decimalState code (position + 1)
  else if isHexStart (code.getD position 0) then
    if isEOF code (position + 1) then illegalToken code
    else hexadecimalState code position
  else illegalToken code

/-- `initialState` from `lex.go`: empty input and any code unit that is not a
digit or a dot produce `EOF` and stop (the `TODO: Almost everything =)`
branch). -/
def initialState (code : List Nat) : Tokval × Option (List Nat) :=
  if code.length = 0 then (EOF, none)
  else if isNumber (code.getD 0 0) then numberState code 1
  else if isDot (code.getD 0 0) then decimalState code 1
  else (EOF, none)

/-- The driver loop of `Lex`: call the current state, emit its token, and
continue with the returned state until it is nil.  The loop itself is
unbounded in the source; `fuel` bounds the number of emitted tokens and
`lexLoop_fuel_agnostic` below shows any fuel above `code.length` gives the
same stream, so the bound is immaterial. -/
def lexLoop : Nat → List Nat → List Tokval
  | 0, _ => []
  | f + 1, code =>
      match initialState code with
      | (t, none) => [t]
      | (t, some rest) => t :: lexLoop f rest

/-- `Lex` from `lex.go`: the full token stream for the given code. -/
def Lex (code : List Nat) : List Tokval :=
  lexLoop (code.length + 1) code

end lexer

namespace types

/-- `types.Bool` from `types/bool.go` (`type Bool bool`), wrapped in a
structure so that the Go methods can be declared on it. -/
structure JsBool where
  val : Bool
deriving DecidableEq, Repr

/-- `types.True`. -/
def JsTrue : JsBool := ⟨true⟩

/-- `types.False`. -/
def JsFalse : JsBool := ⟨false⟩

/-- `NewBool` from `types/bool.go`. -/
def NewBool (b : Bool) : JsBool := ⟨b⟩

/-- `Bool.IsTrue` from `types/bool.go`: `return bool(b)`. -/
def JsBool.IsTrue (b : JsBool) : Bool := b.val

/-- `Bool.IsFalse` from `types/bool.go`: `return bool(b)` — the same body as
`IsTrue`. -/
def JsBool.IsFalse (b : JsBool) : Bool := b.val

/-- `Bool.ToBool` from `types/bool.go`. -/
def JsBool.ToBool (b : JsBool) : JsBool := b

/-- `Bool.Equal` from `types/bool.go`. -/
def JsBool.Equal (b a : JsBool) : Bool := b.val == a.val

/-- Modelled from the spec: `types.Number` (its source is not under `src/`) is
an IEEE-754 double-precision float.  The evaluator applies only negation and
identity to it, both of which are exact bit operations (negation flips the
sign bit), so a double is represented as NaN, a signed infinity, or a
sign–magnitude finite value; `negative = true` on a zero magnitude is the
signed zero `-0`. -/
inductive Number where
  | nan : Number
  | inf (negative : Bool) : Number
  | fin (negative : Bool) (mag : Rat) : Number
deriving DecidableEq, Repr

/-- IEEE-754 negation (`-num` on a Go `float64`): flips the sign — also the
sign of zero — and propagates NaN. -/
def Number.neg : Number → Number
  | .nan => .nan
  | .inf s => .inf (!s)
  | .fin s m => .fin (!s) m

/-- `Bool.ToNumber` from `types/bool.go`. -/
def JsBool.ToNumber (b : JsBool) : Number :=
  if b.val then Number.fin false 1 else Number.fin false 0

/-- Modelled from the spec: the closed set of value kinds of the `types`
package (the evaluator mentions `types.KindObject`; the constant names follow
the same scheme). -/
inductive Kind where
  | KindNumber
  | KindString
  | KindBool
  | KindNull
  | KindUndefined
  | KindObject
deriving DecidableEq, Repr

/-- Modelled from the spec: the kind names used when a kind is formatted into
an error message (`"%s is not a function"`); the spec writes the kinds as
Number, String, Bool, Null, Undefined, Object. -/
def kindName : Kind → String
  | .KindNumber => "Number"
  | .KindString => "String"
  | .KindBool => "Bool"
  | .KindNull => "Null"
  | .KindUndefined => "Undefined"
  | .KindObject => "Object"

/-- Modelled from the spec: `types.Value`, the closed set of value kinds.
An Object is an insertion-ordered property list (property names are unique)
plus an optional Function capability: `funId = some i` says the object is a
`types.Function` whose `Call` behavior is the `i`-th entry of a call oracle
supplied to the evaluator (the concrete built-ins live outside the core).
Property names and identifiers are UTF-16 strings in the source; they are
embedded as Lean strings. -/
inductive Value where
  | number (n : Number)
  | str (s : String)
  | boolean (b : JsBool)
  | null
  | undefined
  | object (props : List (String × Value)) (funId : Option Nat)

mutual

/-- Structural boolean equality on values (used for the object case of
`StrictEqual`, where the Go code compares references; see `StrictEqual`). -/
def Value.beq : Value → Value → Bool
  | .number a, .number b => a == b
  | .str a, .str b => a == b
  | .boolean a, .boolean b => a == b
  | .null, .null => true
  | .undefined, .undefined => true
  | .object p f, .object q g => Value.beqProps p q && f == g
  | _, _ => false
termination_by a _ => sizeOf a
decreasing_by all_goals (simp_wf ; try omega)

/-- Pointwise `Value.beq` over property lists. -/
def Value.beqProps : List (String × Value) → List (String × Value) → Bool
  | [], [] => true
  | (n, v) :: ps, (m, w) :: qs => n == m && Value.beq v w && Value.beqProps ps qs
  | _, _ => false
termination_by p _ => sizeOf p
decreasing_by all_goals (simp_wf ; try omega)

end

instance : BEq Value := ⟨Value.beq⟩

/-- `Kind()` of a value. -/
def Value.kind : Value → Kind
  | .number _ => .KindNumber
  | .str _ => .KindString
  | .boolean _ => .KindBool
  | .null => .KindNull
  | .undefined => .KindUndefined
  | .object _ _ => .KindObject

/-- An object as handed out by `ToObject` and consumed by `Get` and `Call`:
its property list and its optional Function capability. -/
abbrev ObjectData := List (String × Value) × Option Nat

/-- Modelled from the spec: `Get(name)` on an object returns the stored value,
or Undefined if the property is absent — never an error. -/
def objGet (o : ObjectData) (name : String) : Value :=
  match o.1.find? (fun p => p.1 == name) with
  | some p => p.2
  | none => Value.undefined

/-- Modelled from the spec: `Put(name, value, writable)` inserts or overwrites
the property record for `name` (attributes beyond the value itself play no
role in the claims, so only the value is stored). -/
def objPut (o : ObjectData) (name : String) (v : Value) : ObjectData :=
  if (o.1.find? (fun p => p.1 == name)).isSome then
    (o.1.map (fun p => if p.1 == name then (p.1, v) else p), o.2)
  else
    (o.1 ++ [(name, v)], o.2)

/-- Modelled from the spec: rendering of a value by `%s` formatting
(its `ToString` coercion).  The spec pins `"true"`/`"false"` for Bool and the
keyword spellings for Null/Undefined; the remaining renderings are not pinned
by the spec and only their existence matters to the claims. -/
def Value.displayString : Value → String
  | .number .nan => "NaN"
  | .number (.inf s) => (if s then "-" else "") ++ "Infinity"
  | .number (.fin s m) => (if s then "-" else "") ++ toString m
  | .str s => s
  | .boolean b => if b.val then "true" else "false"
  | .null => "null"
  | .undefined => "undefined"
  | .object _ _ => "[object Object]"

/-- Modelled from the spec: `StrictEqual(a, b)` holds iff the kinds agree and
the underlying values compare equal; `NaN` is never strict-equal to itself and
`+0`/`-0` compare equal.  Go compares objects by reference; the embedding
compares them structurally (no claim depends on object strict equality). -/
def Number.strictEqual : Number → Number → Bool
  | .nan, _ => false
  | _, .nan => false
  | .inf s, .inf t => s == t
  | .fin _ 0, .fin _ 0 => true
  | .fin s m, .fin t n => s == t && m == n
  | _, _ => false

/-- Modelled from the spec: `types.StrictEqual`. -/
def StrictEqual : Value → Value → Bool
  | .number a, .number b => a.strictEqual b
  | .str a, .str b => a == b
  | .boolean a, .boolean b => a.val == b.val
  | .null, .null => true
  | .undefined, .undefined => true
  | .object p f, .object q g => p == q && f == g
  | _, _ => false

end types

/-- Evaluation errors.  The Go evaluator returns `error` values created with
`fmt.Errorf`; each constructor records one error site together with its
payload, and `EvalErr.message` renders the exact format string of the source.
Go panics (used by the evaluator for unimplemented paths) are modelled as the
distinct `goPanic` outcome. -/
inductive EvalErr where
  | notDefined (name : String)
  | notANumber (operandResult : Option types.Value)
  | notAFunction (k : types.Kind)
  | unsupportedUnaryOperator (op : token.Ty)
  | toObjectFailure (k : types.Kind)
  | goPanic (msg : String)

/-- Modelled from the spec: name of a token type when formatted with `%s`
(only the unary operators can reach a message). -/
def token.tyName : token.Ty → String
  | .Decimal => "Decimal"
  | .Hexadecimal => "Hexadecimal"
  | .Str => "String"
  | .Ident => "Ident"
  | .LineTerminator => "LineTerminator"
  | .Dot => "Dot"
  | .Comma => "Comma"
  | .LParen => "LParen"
  | .RParen => "RParen"
  | .Plus => "Plus"
  | .Minus => "Minus"
  | .Illegal => "Illegal"
  | .EOF => "EOF"

/-- The message carried by each error, following the `fmt.Errorf` format
strings of `abad.go` (`"%s is not defined"`, `"not a number: %s"`,
`"%s is not a function"`, `"unsupported unary operator: %s"`).  A `nil`
operand result (possible only for an empty-program operand) renders as
`<nil>`; the `toObjectFailure` text is modelled from the spec, which leaves
it open. -/
def EvalErr.message : EvalErr → String
  | .notDefined name => name ++ " is not defined"
  | .notANumber none => "not a number: <nil>"
  | .notANumber (some v) => "not a number: " ++ v.displayString
  | .notAFunction k => types.kindName k ++ " is not a function"
  | .unsupportedUnaryOperator op => "unsupported unary operator: " ++ token.tyName op
  | .toObjectFailure k => "cannot convert " ++ types.kindName k ++ " to object"
  | .goPanic msg => msg

namespace types

/-- Modelled from the spec: `ToObject()` wraps primitives in an Object, but
boxing of Number/String/Bool is a declared-yet-unimplemented requirement, so
only values that are already Objects convert without failing. -/
def toObject : Value → Except EvalErr ObjectData
  | .object props funId => .ok (props, funId)
  | v => .error (.toObjectFailure v.kind)

end types

namespace ast

/-- Modelled from the spec: the AST node variants the evaluator dispatches on
(`ast` package is not under `src/`).  `number` carries the `float64` value of
the literal together with the flag distinguishing integer-flavored literals —
the flag affects only display/construction, never evaluation.  Statement-only
variants other than `program` (var/function declarations) are not reached by
any claim and are omitted. -/
inductive Node where
  | program (nodes : List Node)
  | number (value : types.Number) (intFlavored : Bool)
  | ident (name : String)
  | unary (op : token.Ty) (operand : Node)
  | member (obj : Node) (property : String)
  | call (callee : Node) (args : List Node)

/-- `ast.IsExpr`: every variant except `Program` is an expression. -/
def isExpr : Node → Bool
  | .program _ => false
  | _ => true

end ast

namespace abad

open types

/-- The behavior of `Function.Call` for the functions installed in the global
object: `calls fid receiver args` is the value returned by `Call` of the
function whose capability id is `fid`.  Per the spec, `Call` returns a Value
and is assumed non-failing at this layer, so the oracle is total. -/
abbrev CallOracle := Nat → ObjectData → List Value → Value

/-- `evalIdentExpr` from `abad.go`: `Get` the name from the global object
(per the spec `Get` never fails) and treat a strict-equal-to-Undefined result
as the error `"<name> is not defined"`. -/
def evalIdentExpr (global : ObjectData) (ident : String) : Except EvalErr Value :=
  let val := objGet global ident
  if StrictEqual val Value.undefined then
    .error (.notDefined ident)
  else
    .ok val

mutual

/-- `eval` from `abad.go`: expressions go to `evalExpr` (their value is never
the nil interface), `Program` nodes to `evalProgram`; the `Ok (none)` result
embeds Go's nil `types.Value`. -/
def eval (global : ObjectData) (calls : CallOracle) : ast.Node → Except EvalErr (Option Value)
  | .program ns => evalProgram global calls ns
  | n => (evalExpr global calls n).map some
termination_by n => 4 * sizeOf n + 2
decreasing_by all_goals (simp_wf ; try omega)

/-- `evalProgram` from `abad.go`: evaluate the statements in source order,
keeping the last result (so the program's result is the last statement's);
an evaluation error is returned at once — `Except.bind` embeds the
`if err != nil { return nil, err }` early return — and the remaining
statements are not evaluated.  An empty program returns Go's nil
`types.Value` (`none`). -/
def evalProgram (global : ObjectData) (calls : CallOracle) : List ast.Node → Except EvalErr (Option Value)
  | [] => .ok none
  | [n] => eval global calls n
  | n :: r :: rs =>
      (eval global calls n).bind (fun _ => evalProgram global calls (r :: rs))
termination_by ns => 4 * sizeOf ns
decreasing_by all_goals (simp_wf ; try omega)

/-- `evalExpr` from `abad.go`: dispatch on the expression node kind; a
non-expression argument hits the `panic("internal error: not an expression")`
guard. -/
def evalExpr (global : ObjectData) (calls : CallOracle) : ast.Node → Except EvalErr Value
  | .number v _ => .ok (.number v)
  | .ident name => evalIdentExpr global name
  | .member obj property => evalMemberExpr global calls obj property
  | .call callee args => evalCallExpr global calls callee args
  | .unary op operand => evalUnaryExpr global calls op operand
  | .program _ => .error (.goPanic "internal error: not an expression")
termination_by n => 4 * sizeOf n + 1
decreasing_by all_goals (simp_wf ; try omega)

/-- `evalUnaryExpr` from `abad.go`: evaluate the operand first (through
`a.eval`), require a `types.Number` result (anything else is the error
`"not a number: <value>"`), then negate for `-` and return the operand
unchanged for `+`; other operators hit the `default` branch. -/
def evalUnaryExpr (global : ObjectData) (calls : CallOracle) (op : token.Ty) (operand : ast.Node) : Except EvalErr Value :=
  (eval global calls operand).bind (fun obj =>
    match obj with
    | some (.number num) =>
        match op with
        | token.Ty.Minus => .ok (.number num.neg)
        | token.Ty.Plus => .ok (.number num)
        | _ => .error (.unsupportedUnaryOperator op)
    | _ => .error (.notANumber obj))
termination_by 4 * sizeOf operand + 3
decreasing_by all_goals (simp_wf ; try omega)

/-- `evalMemberExpr` from `abad.go`: evaluate the object sub-expression; a
non-Object value hits the `panic("wrapping primitive values not implemented
yet")` guard; otherwise `Get` the property on the object (absent property
gives Undefined, not an error). -/
def evalMemberExpr (global : ObjectData) (calls : CallOracle) (obj : ast.Node) (property : String) : Except EvalErr Value :=
  (evalExpr global calls obj).bind (fun objval =>
    if objval.kind ≠ Kind.KindObject then
      .error (.goPanic "wrapping primitive values not implemented yet")
    else
      (toObject objval).bind (fun o => .ok (objGet o property)))
termination_by 4 * sizeOf obj + 3
decreasing_by all_goals (simp_wf ; try omega)

/-- `evalCallExpr` from `abad.go`: evaluate the callee, coerce it with
`ToObject`, require the Function capability (else `"<kind> is not a
function"`), evaluate the arguments, then `fun.Call(obj, args)` — whose
result, per the spec, is a plain Value returned with a nil error. -/
def evalCallExpr (global : ObjectData) (calls : CallOracle) (callee : ast.Node) (args : List ast.Node) : Except EvalErr Value :=
  (evalExpr global calls callee).bind (fun objval =>
    (toObject objval).bind (fun obj =>
      match obj.2 with
      | none => .error (.notAFunction objval.kind)
      | some fid =>
          (evalArgs global calls args).bind (fun vargs => .ok (calls fid obj vargs))))
termination_by 4 * (sizeOf callee + sizeOf args) + 3
decreasing_by all_goals (simp_wf ; try omega)

/-- `evalArgs` from `abad.go`: evaluate the argument expressions left to
right, returning the first error, otherwise the list of values in order. -/
def evalArgs (global : ObjectData) (calls : CallOracle) : List ast.Node → Except EvalErr (List Value)
  | [] => .ok []
  | a :: rest =>
      (evalExpr global calls a).bind (fun v =>
        (evalArgs global calls rest).bind (fun vs => .ok (v :: vs)))
termination_by args => 4 * sizeOf args
decreasing_by all_goals (simp_wf ; try omega)

end

/-- The pre-populated global object of `NewAbad`/`setup`, modelled from the
spec: a base data object holding the `console` built-in, whose callable
member `log` satisfies the Function capability (call id 0). -/
def initialGlobal : ObjectData :=
  (([] : List (String × Value)) ++
    [("console", Value.object [("log", Value.object [] (some 0))] none)], none)

/-- A call oracle for concrete instantiations: every `Call` returns
Undefined (the concrete behavior of built-ins is outside the core). -/
def nullOracle : CallOracle := fun _ _ _ => Value.undefined

end abad

/-!
## Theorems

Helper lemmas first, then one theorem per claim (with a witness wherever the
theorem carries hypotheses).
-/

/-- `Except.bind` on a success applies the continuation. -/
@[simp] theorem except_bind_ok {e a b : Type} (x : a) (f : a → Except e b) :
    Except.bind (Except.ok x) f = f x := rfl

/-- `Except.bind` on an error returns the error unchanged (the
`if err != nil { return nil, err }` early return of the Go code). -/
@[simp] theorem except_bind_error {e a b : Type} (err : e) (f : a → Except e b) :
    Except.bind (Except.error err) f = Except.error err := rfl

namespace lexer

theorem skipFuel_ge (f : Nat) (code : List Nat) (position : Nat) :
    position ≤ skipFuel f code position := by
  induction f generalizing position with
  | zero => simp [skipFuel]
  | succ f ih =>
      simp only [skipFuel]
      split
      · exact Nat.le_refl _
      · exact Nat.le_trans (Nat.le_succ _) (ih (position + 1))

theorem skipToEOF_ge (code : List Nat) (position : Nat) :
    position ≤ skipToEOF code position :=
  skipFuel_ge _ code position

/-- Whenever `numberState` yields a continuation, the emitted token is a
`Decimal` or `Hexadecimal` token and the continuation drops at least one code
unit (`Illegal` tokens always come with a nil state). -/
theorem numberState_some (code : List Nat) (position : Nat) (hpos : 1 ≤ position)
    (t : Tokval) (rest : List Nat)
    (h : numberState code position = (t, some rest)) :
    (t.type = token.Ty.Decimal ∨ t.type = token.Ty.Hexadecimal) ∧
      ∃ p, 1 ≤ p ∧ rest = code.drop p := by
  unfold numberState at h
  split at h
  · exact ⟨Or.inl (by cases h; rfl), position, hpos, by cases h; rfl⟩
  · split at h
    · unfold decimalState at h
      refine ⟨Or.inl (by cases h; rfl), skipToEOF code (position + 1), ?_, by cases h; rfl⟩
      exact Nat.le_trans (Nat.le_trans hpos (Nat.le_succ _)) (skipToEOF_ge _ _)
    · split at h
      · split at h
        · exact absurd h (by simp [illegalToken])
        · unfold hexadecimalState at h
          refine ⟨Or.inr (by cases h; rfl), skipToEOF code position, ?_, by cases h; rfl⟩
          exact Nat.le_trans hpos (skipToEOF_ge _ _)
      · exact absurd h (by simp [illegalToken])

/-- Whenever the initial state yields a continuation, the emitted token is a
`Decimal` or `Hexadecimal` token and the remaining input is strictly shorter.
`Illegal` and `EOF` tokens always come with a nil state. -/
theorem initialState_some (code : List Nat) (t : Tokval) (rest : List Nat)
    (h : initialState code = (t, some rest)) :
    (t.type = token.Ty.Decimal ∨ t.type = token.Ty.Hexadecimal) ∧
      rest.length < code.length := by
  unfold initialState at h
  split at h
  · exact absurd h (by simp)
  · rename_i hne
    have hlen : 0 < code.length := Nat.pos_of_ne_zero hne
    split at h
    · obtain ⟨hty, p, hp, hrest⟩ := numberState_some code 1 (Nat.le_refl 1) t rest h
      refine ⟨hty, ?_⟩
      subst hrest
      simp only [List.length_drop]
      omega
    · split at h
      · unfold decimalState at h
        have hp : 1 ≤ skipToEOF code 1 := skipToEOF_ge code 1
        cases h
        refine ⟨Or.inl rfl, ?_⟩
        simp only [List.length_drop]
        omega
      · exact absurd h (by simp)

/-- Any fuel above the input length drives the token loop to completion: the
stream does not depend on the bound, so `Lex` agrees with the unbounded
source loop. -/
theorem lexLoop_fuel_agnostic (n : Nat) :
    ∀ (code : List Nat) (f g : Nat), code.length ≤ n →
      code.length < f → code.length < g → lexLoop f code = lexLoop g code := by
  induction n with
  | zero =>
      intro code f g hn hf hg
      obtain ⟨f, rfl⟩ : ∃ f', f = f' + 1 := ⟨f - 1, by omega⟩
      obtain ⟨g, rfl⟩ : ∃ g', g = g' + 1 := ⟨g - 1, by omega⟩
      have hcode : code = [] := List.eq_nil_of_length_eq_zero (by omega)
      subst hcode
      rfl
  | succ n ih =>
      intro code f g hn hf hg
      obtain ⟨f, rfl⟩ : ∃ f', f = f' + 1 := ⟨f - 1, by omega⟩
      obtain ⟨g, rfl⟩ : ∃ g', g = g' + 1 := ⟨g - 1, by omega⟩
      cases h : initialState code with
      | mk t o =>
          cases o with
          | none => simp only [lexLoop, h]
          | some rest =>
              obtain ⟨-, hlt⟩ := initialState_some code t rest h
              have hr : rest.length ≤ n := by omega
              simp only [lexLoop, h]
              rw [ih rest f g hr (by omega) (by omega)]

/-- C6: the claim says the inputs `"0.1.2"`, `"123e123e123"`, `"0x"` and
`"0x123456G"` each lex to exactly one Illegal token carrying the whole input.
On the code only `"0x"` does: `decimalState` and `hexadecimalState` blindly
consume to the end of the input (their validation is still a `TODO`), so
`"0.1.2"` and `"123e123e123"` lex to a single Decimal token and
`"0x123456G"` to a single Hexadecimal token, each followed by `EOF` — in
contradiction with the lexer's own tests (`TestIllegalNumericLiterals`). -/
theorem claim6_invalid_numbers_lex_as_regular_tokens :
    Lex (strU "0.1.2") =
        [{ type := token.Ty.Decimal, value := strU "0.1.2" }, EOF] ∧
      Lex (strU "123e123e123") =
        [{ type := token.Ty.Decimal, value := strU "123e123e123" }, EOF] ∧
      Lex (strU "0x") = [{ type := token.Ty.Illegal, value := strU "0x" }] ∧
      Lex (strU "0x123456G") =
        [{ type := token.Ty.Hexadecimal, value := strU "0x123456G" }, EOF] := by
  decide

/-- C7: the claim says `"+-+-"` lexes to Plus, Minus, Plus, Minus, then
EndOfInput.  On the code the initial state recognizes only digits and dots
(`TODO: Almost everything =)`), so a leading sign immediately produces `EOF`
and the stream is `[EOF]` — in contradiction with the lexer's own tests
(`TestNumericLiterals` sign-prefixed cases). -/
theorem claim7_sign_run_lexes_to_eof_only :
    Lex (strU "+-+-") = [EOF] := by
  decide

/-- C9: an Illegal token is always the final token of the stream: the state
returned together with an Illegal token is nil, so the machine stops without
emitting anything further — not even an `EOF` token. -/
theorem claim9_illegal_token_is_final (code : List Nat) (pre suf : List Tokval)
    (t : Tokval) (h : Lex code = pre ++ t :: suf)
    (hill : t.type = token.Ty.Illegal) : suf = [] := by
  suffices H : ∀ (f : Nat) (code : List Nat) (pre suf : List Tokval) (t : Tokval),
      lexLoop f code = pre ++ t :: suf → t.type = token.Ty.Illegal → suf = [] from
    H (code.length + 1) code pre suf t h hill
  intro f
  induction f with
  | zero =>
      intro code pre suf t h _
      exact absurd h.symm (by simp [lexLoop])
  | succ f ih =>
      intro code pre suf t h hill
      rw [lexLoop] at h
      cases hstate : initialState code with
      | mk t0 o =>
          rw [hstate] at h
          cases o with
          | none =>
              cases pre with
              | nil =>
                  simp only [List.nil_append] at h
                  exact (List.cons.injEq _ _ _ _ ▸ h).2.symm
              | cons p ps =>
                  simp only [List.cons_append] at h
                  have := (List.cons.injEq _ _ _ _ ▸ h).2
                  exact absurd this.symm (by simp)
          | some rest =>
              cases pre with
              | nil =>
                  simp only [List.nil_append] at h
                  have ht : t0 = t := (List.cons.injEq _ _ _ _ ▸ h).1
                  obtain ⟨hty, -⟩ := initialState_some code t0 rest hstate
                  subst ht
                  rcases hty with h1 | h1 <;> rw [h1] at hill <;> exact absurd hill (by simp)
              | cons p ps =>
                  simp only [List.cons_append] at h
                  exact ih rest ps suf t (List.cons.injEq _ _ _ _ ▸ h).2 hill

/-- C9 witness: the Illegal token produced for `"0x"` is final. -/
theorem claim9_witness :
    Lex (strU "0x") = [{ type := token.Ty.Illegal, value := strU "0x" }] ∧
      ([] : List Tokval) = [] :=
  ⟨by decide,
    claim9_illegal_token_is_final (strU "0x") []
      [] { type := token.Ty.Illegal, value := strU "0x" } (by decide) (by decide)⟩

/-- C10: the hex rule does not require the leading digit to be `0`: the input
`"1x2"` — first code unit the digit `1` (code 49, not `0` = 48), second `x`
with one more unit after it — lexes to a single Hexadecimal token carrying
the whole input (followed by the `EOF` token). -/
theorem claim10_hex_without_leading_zero :
    Lex (strU "1x2") =
        [{ type := token.Ty.Hexadecimal, value := strU "1x2" }, EOF] ∧
      isNumber ((strU "1x2").getD 0 0) = true ∧
      (strU "1x2").getD 0 0 ≠ 48 ∧
      isHexStart ((strU "1x2").getD 1 0) = true := by
  decide

end lexer

namespace types

/-- C8: `Bool`'s "is falsy" check returns the same answer as its "is truthy"
check for every value — both return the underlying boolean — so
`IsFalse(True) = true` and `IsFalse(False) = false` (the apparent defect the
spec pins without fixing). -/
theorem claim8_bool_isfalse_equals_istrue :
    (∀ b : JsBool, b.IsFalse = b.IsTrue ∧ b.IsTrue = b.val) ∧
      JsTrue.IsFalse = true ∧ JsFalse.IsFalse = false :=
  ⟨fun _ => ⟨rfl, rfl⟩, rfl, rfl⟩

end types

namespace abad

open types

/-- C1: a Program evaluates its statements in source order; the whole
program's result is the last statement's result (including that statement's
own error, if any), and the first error among the earlier statements is
returned unchanged — for every possible remainder `rest`, which shows the
remaining statements are never evaluated. -/
theorem claim1_program_last_value_first_error (global : ObjectData)
    (calls : CallOracle) (pre : List ast.Node)
    (hpre : ∀ s ∈ pre, ∃ v, eval global calls s = .ok v) :
    (∀ last, evalProgram global calls (pre ++ [last]) = eval global calls last) ∧
      (∀ bad e rest, eval global calls bad = .error e →
        evalProgram global calls (pre ++ bad :: rest) = .error e) := by
  induction pre with
  | nil =>
      constructor
      · intro last
        cases h : eval global calls last <;> simp [evalProgram, h]
      · intro bad e rest h
        cases rest <;> simp [evalProgram, h]
  | cons p ps ih =>
      obtain ⟨v, hv⟩ := hpre p (by simp)
      obtain ⟨ih1, ih2⟩ := ih (fun s hs => hpre s (by simp [hs]))
      constructor
      · intro last
        cases hq : ps ++ [last] with
        | nil => exact absurd hq (by simp)
        | cons r rs =>
            calc evalProgram global calls ((p :: ps) ++ [last])
                = evalProgram global calls (r :: rs) := by
                  simp only [List.cons_append, hq, evalProgram, hv, except_bind_ok]
              _ = eval global calls last := hq ▸ ih1 last
      · intro bad e rest h
        cases hq : ps ++ bad :: rest with
        | nil => exact absurd hq (by simp)
        | cons r rs =>
            calc evalProgram global calls ((p :: ps) ++ bad :: rest)
                = evalProgram global calls (r :: rs) := by
                  simp only [List.cons_append, hq, evalProgram, hv, except_bind_ok]
              _ = .error e := hq ▸ ih2 bad e rest h

/-- C1 witness: a two-statement prefix-then-failure program: the number
literal `1` evaluates, the unbound identifier `zzz` fails, and the trailing
statement is discarded. -/
theorem claim1_witness :
    evalProgram initialGlobal nullOracle
        ([ast.Node.number (Number.fin false 1) true] ++
          ast.Node.ident "zzz" :: [ast.Node.number (Number.fin false 2) true]) =
      .error (.notDefined "zzz") := by
  refine (claim1_program_last_value_first_error initialGlobal nullOracle
      [ast.Node.number (Number.fin false 1) true] ?_).2
      (ast.Node.ident "zzz") (.notDefined "zzz")
      [ast.Node.number (Number.fin false 2) true] ?_
  · intro s hs
    rw [List.mem_singleton] at hs
    subst hs
    exact ⟨some (.number (Number.fin false 1)), by simp [eval, evalExpr, Except.map]⟩
  · simp [eval, evalExpr, evalIdentExpr, Except.map, objGet, initialGlobal, StrictEqual]

/-- C2: evaluating an identifier looks the name up on the global object with
`Get`; whenever that lookup yields Undefined — which per `Get`'s contract
covers both an absent name and a name bound to Undefined — evaluation fails
with the message `"<name> is not defined"`. -/
theorem claim2_undefined_ident_is_error (global : ObjectData) (name : String)
    (h : objGet global name = Value.undefined) :
    evalIdentExpr global name = .error (.notDefined name) ∧
      (EvalErr.notDefined name).message = name ++ " is not defined" ∧
      (∀ g : ObjectData, g.1.find? (fun p => p.1 == name) = none →
        objGet g name = Value.undefined) := by
  refine ⟨?_, rfl, ?_⟩
  · simp [evalIdentExpr, h, StrictEqual]
  · intro g hg
    simp [objGet, hg]

/-- C2 witness: the unbound identifier `zzz` on the initial global object
fails with exactly `"zzz is not defined"`. -/
theorem claim2_witness :
    evalIdentExpr initialGlobal "zzz" = .error (.notDefined "zzz") ∧
      (EvalErr.notDefined "zzz").message = "zzz is not defined" :=
  ⟨(claim2_undefined_ident_is_error initialGlobal "zzz" rfl).1,
    (claim2_undefined_ident_is_error initialGlobal "zzz" rfl).2.1⟩

/-- The argument loop returns the first (leftmost) argument error: when all
arguments before `bad` evaluate successfully and `bad` fails with `e`, the
whole of `evalArgs` fails with `e` — whatever follows `bad`. -/
theorem evalArgs_leftmost_failure (global : ObjectData) (calls : CallOracle)
    (pre : List ast.Node) (bad : ast.Node) (rest : List ast.Node) (e : EvalErr)
    (hpre : ∀ a ∈ pre, ∃ v, evalExpr global calls a = .ok v)
    (hbad : evalExpr global calls bad = .error e) :
    evalArgs global calls (pre ++ bad :: rest) = .error e := by
  induction pre with
  | nil => simp [evalArgs, hbad]
  | cons p ps ih =>
      obtain ⟨v, hv⟩ := hpre p (by simp)
      have := ih (fun a ha => hpre a (by simp [ha]))
      simp [evalArgs, hv, this]

/-- C3: once the callee has been accepted as a Function, the arguments are
evaluated strictly left to right: the first failing argument's error is the
call expression's result (for every remainder and independently of the call
oracle's behavior, so `Call` is never invoked), and only when every argument
succeeds is `Call(receiverObject, argumentValues)` invoked, its result being
returned unchanged. -/
theorem claim3_call_args_left_to_right (global : ObjectData) (calls : CallOracle)
    (callee : ast.Node) (args : List ast.Node) (objval : Value)
    (obj : ObjectData) (fid : Nat)
    (hcallee : evalExpr global calls callee = .ok objval)
    (hobj : toObject objval = .ok obj)
    (hfun : obj.2 = some fid) :
    (∀ pre bad rest e, args = pre ++ bad :: rest →
        (∀ a ∈ pre, ∃ v, evalExpr global calls a = .ok v) →
        evalExpr global calls bad = .error e →
        evalCallExpr global calls callee args = .error e) ∧
      (∀ vargs, evalArgs global calls args = .ok vargs →
        evalCallExpr global calls callee args = .ok (calls fid obj vargs)) := by
  constructor
  · rintro pre bad rest e rfl hpre hbad
    have hargs := evalArgs_leftmost_failure global calls pre bad rest e hpre hbad
    simp [evalCallExpr, hcallee, hobj, hfun, hargs]
  · intro vargs hargs
    simp [evalCallExpr, hcallee, hobj, hfun, hargs]

/-- C3 witness: calling `console.log` with the failing argument `zzz` (an
unbound identifier) returns that argument's error. -/
theorem claim3_witness :
    evalCallExpr initialGlobal nullOracle
        (ast.Node.member (ast.Node.ident "console") "log") [ast.Node.ident "zzz"] =
      .error (.notDefined "zzz") := by
  refine (claim3_call_args_left_to_right initialGlobal nullOracle
      (ast.Node.member (ast.Node.ident "console") "log") [ast.Node.ident "zzz"]
      (Value.object [] (some 0)) ([], some 0) 0 ?_ rfl rfl).1
      [] (ast.Node.ident "zzz") [] (.notDefined "zzz") rfl (by simp) ?_
  · simp [evalExpr, evalMemberExpr, evalIdentExpr, objGet, initialGlobal,
      StrictEqual, Value.kind, toObject]
  · simp [evalExpr, evalIdentExpr, objGet, initialGlobal, StrictEqual]

/-- C4: when the callee evaluates successfully and `ToObject` succeeds but
the resulting object lacks the Function capability, the call fails with
`"<kind> is not a function"`, where `<kind>` is the callee value's kind. -/
theorem claim4_not_a_function (global : ObjectData) (calls : CallOracle)
    (callee : ast.Node) (args : List ast.Node) (objval : Value)
    (obj : ObjectData)
    (hcallee : evalExpr global calls callee = .ok objval)
    (hobj : toObject objval = .ok obj)
    (hnotfun : obj.2 = none) :
    evalCallExpr global calls callee args = .error (.notAFunction objval.kind) ∧
      (EvalErr.notAFunction objval.kind).message =
        kindName objval.kind ++ " is not a function" := by
  refine ⟨?_, rfl⟩
  simp [evalCallExpr, hcallee, hobj, hnotfun]

/-- C4 witness: calling the `console` object itself — an Object without the
Function capability — fails with `"Object is not a function"`. -/
theorem claim4_witness :
    evalCallExpr initialGlobal nullOracle (ast.Node.ident "console") [] =
        .error (.notAFunction Kind.KindObject) ∧
      (EvalErr.notAFunction Kind.KindObject).message = "Object is not a function" := by
  have h := claim4_not_a_function initialGlobal nullOracle
      (ast.Node.ident "console") []
      (Value.object [("log", Value.object [] (some 0))] none)
      ([("log", Value.object [] (some 0))], none)
      (by simp [evalExpr, evalIdentExpr, objGet, initialGlobal, StrictEqual])
      rfl rfl
  exact ⟨h.1, h.2⟩

/-- C5: a unary expression evaluates its operand first — an operand error is
returned unchanged for any operator; a successful operand value that is not
of kind Number is the hard error `"not a number: <value>"`; and on a Number
`n` the Minus operator yields the IEEE-754 negation of `n` while Plus yields
`n` unchanged — where negation flips the sign (also of zero: `-0` from `0`)
and propagates NaN. -/
theorem claim5_unary_number_semantics (global : ObjectData) (calls : CallOracle)
    (operand : ast.Node) :
    (∀ e, eval global calls operand = .error e →
        ∀ op, evalUnaryExpr global calls op operand = .error e) ∧
      (∀ v, eval global calls operand = .ok (some v) → v.kind ≠ Kind.KindNumber →
        ∀ op, evalUnaryExpr global calls op operand = .error (.notANumber (some v)) ∧
          (EvalErr.notANumber (some v)).message = "not a number: " ++ v.displayString) ∧
      (∀ num, eval global calls operand = .ok (some (.number num)) →
        evalUnaryExpr global calls token.Ty.Minus operand = .ok (.number num.neg) ∧
          evalUnaryExpr global calls token.Ty.Plus operand = .ok (.number num)) ∧
      (∀ s m, Number.neg (.fin s m) = .fin (!s) m) ∧
      Number.neg .nan = .nan := by
  refine ⟨?_, ?_, ?_, fun s m => rfl, rfl⟩
  · intro e h op
    simp [evalUnaryExpr, h]
  · intro v h hkind op
    refine ⟨?_, rfl⟩
    cases v with
    | number n => exact absurd rfl hkind
    | str s => simp [evalUnaryExpr, h]
    | boolean b => simp [evalUnaryExpr, h]
    | null => simp [evalUnaryExpr, h]
    | undefined => simp [evalUnaryExpr, h]
    | object p f => simp [evalUnaryExpr, h]
  · intro num h
    exact ⟨by simp [evalUnaryExpr, h], by simp [evalUnaryExpr, h]⟩

/-- C5 witness: negating the literal `0` flips the sign of zero (giving
`-0`), and unary plus returns it unchanged. -/
theorem claim5_witness :
    evalUnaryExpr initialGlobal nullOracle token.Ty.Minus
        (ast.Node.number (Number.fin false 0) true) =
      .ok (.number (Number.fin true 0)) ∧
    evalUnaryExpr initialGlobal nullOracle token.Ty.Plus
        (ast.Node.number (Number.fin false 0) true) =
      .ok (.number (Number.fin false 0)) := by
  have h := (claim5_unary_number_semantics initialGlobal nullOracle
      (ast.Node.number (Number.fin false 0) true)).2.2.1
      (Number.fin false 0) (by simp [eval, evalExpr, Except.map])
  exact ⟨by simpa [Number.neg] using h.1, h.2⟩

end abad
